import Mathlib

/-!
Shallow embedding of the sandboxed code-execution core of `src/server.py`
(the `0xbot-studio/code-executor` repository), together with theorems
settling the specification claims about it.

Modelling conventions:
* Python values that cross the sandbox boundary are `PyVal`; Python `None`
  is `PyVal.none`.  Opaque function objects (builtins fished out with
  `getattr`, lambdas, snippet-defined callables) are `PyVal.pyFunc tag`
  with a distinguishing tag.
* Python dicts are association lists (`PyDict`) with Python's in-place
  update semantics (`dictSet` replaces an existing key in place, otherwise
  appends; `dictUpdate` folds `dictSet` over the new entries, so later
  entries win, exactly like `dict.update`).
* Python's substring test `needle in hay` is `strContains hay needle`,
  computed on the character lists.
* Exceptions are `PyExc`.  `PyExc.securityErr` models the script's
  `SecurityError` (an `Exception` subclass); `PyExc.exc` models any other
  `Exception`-derived raise (carrying `str(e)` and the string
  `traceback.format_exc()` would produce); `PyExc.baseExc` models a raise
  of a `BaseException` that is NOT an `Exception` (e.g. `SystemExit`,
  `KeyboardInterrupt`), which the script's `except Exception` clauses do
  not catch.
* The Python interpreter's behaviour on the submitted snippet
  (`compile`, `exec`, calling the entry point) and the OS behaviour of
  `resource.setrlimit` cannot be computed inside the embedding; they are
  supplied as an oracle (`PyOracle`) whose fields range over every
  outcome Python allows (normal completion or a raise of any `PyExc`).
  The orchestration logic of `_execute_code_safely` and
  `execute_code_in_process` — the try/except structure, the order of the
  steps, the dict plumbing, the result records — is translated literally
  from the source.
* Functions that in Python may let an exception escape return
  `Except PyExc _`; a `.error e` value means the Python function
  propagates the exception `e` to its caller.
* `_execute_code_safely` additionally returns the list of interpreter
  actions it attempted (`Event`), so that claims of the form "the snippet
  is never compiled / executed / invoked" are statable.
-/

/-- Python runtime values as far as the sandbox boundary observes them. -/
inductive PyVal where
  | none
  | bool (b : Bool)
  | int (n : Int)
  | str (s : String)
  | list (xs : List PyVal)
  | dict (kvs : List (String × PyVal))
  | pyFunc (tag : String)
  deriving Repr, BEq

/-- Python `v is None`. -/
def PyVal.isNone : PyVal → Bool
  | .none => true
  | _ => false

/-- A Python dict with string keys, as an insertion-ordered association list. -/
abbrev PyDict := List (String × PyVal)

/-- Python `d[k] = v`: replace the binding of `k` in place if present, else append. -/
def dictSet : PyDict → String → PyVal → PyDict
  | [], k, v => [(k, v)]
  | (k1, v1) :: rest, k, v =>
      if k1 = k then (k, v) :: rest else (k1, v1) :: dictSet rest k v

/-- Python `k in d`. -/
def dictMem : PyDict → String → Bool
  | [], _ => false
  | (k1, _) :: rest, k => if k1 = k then true else dictMem rest k

/-- Python `d[k]`, with `None` for an absent key (only ever used under a `dictMem` guard). -/
def dictGet : PyDict → String → PyVal
  | [], _ => PyVal.none
  | (k1, v1) :: rest, k => if k1 = k then v1 else dictGet rest k

/-- Python `d.update(entries)`: fold `d[k] = v` over the entries, in order. -/
def dictUpdate (d : PyDict) (entries : PyDict) : PyDict :=
  entries.foldl (fun acc kv => dictSet acc kv.fst kv.snd) d

/-- Whether `pat` occurs at the head of `hay` (character-list version). -/
def charsLeadWith : List Char → List Char → Bool
  | [], _ => true
  | _ :: _, [] => false
  | a :: as, b :: bs => a == b && charsLeadWith as bs

/-- Whether `pat` occurs anywhere in `hay` (character-list version). -/
def charsHave (pat : List Char) : List Char → Bool
  | [] => pat.isEmpty
  | b :: bs => charsLeadWith pat (b :: bs) || charsHave pat bs

/-- Python's substring test `pat in hay`. -/
def strContains (hay pat : String) : Bool :=
  charsHave pat.toList hay.toList

/-- Exceptions, at the granularity the script's `except` clauses distinguish. -/
inductive PyExc where
  | securityErr (msg : String)
  | exc (msg : String) (tb : String)
  | baseExc (msg : String) (tb : String)
  deriving Repr, DecidableEq

/-- Python `str(e)`. -/
def PyExc.message : PyExc → String
  | .securityErr m => m
  | .exc m _ => m
  | .baseExc m _ => m

/-- The string `traceback.format_exc()` renders for the exception. -/
def PyExc.trace : PyExc → String
  | .securityErr m => "SecurityError: " ++ m
  | .exc _ t => t
  | .baseExc _ t => t

/-- Whether the exception is outside the `Exception` hierarchy
(`except Exception` does not catch it). -/
def PyExc.isBase : PyExc → Bool
  | .baseExc _ _ => true
  | _ => false

/-- The dataclass `ExecutionResult` of `src/server.py` (field order as declared). -/
structure ExecutionResult where
  status : String
  result : PyVal := PyVal.none
  error : Option String := Option.none
  traceback : Option String := Option.none
  deriving Repr

/-- Method `ExecutionResult.to_dict`: the field dict with `None`-valued fields
dropped (`{k: v for k, v in self.__dict__.items() if v is not None}`). -/
def ExecutionResult.to_dict (r : ExecutionResult) : PyDict :=
  [("status", PyVal.str r.status)]
    ++ (if r.result.isNone then [] else [("result", r.result)])
    ++ (match r.error with
        | Option.some e => [("error", PyVal.str e)]
        | Option.none => [])
    ++ (match r.traceback with
        | Option.some t => [("traceback", PyVal.str t)]
        | Option.none => [])

/-- The set literal `FORBIDDEN_MODULES`, in source order.  (CPython iterates a
`set` in an unspecified order; every theorem below that depends on which
matching module is reported first is robust to reordering or says so.) -/
def FORBIDDEN_MODULES : List String :=
  ["os", "sys", "subprocess", "socket", "requests", "urllib",
   "pathlib", "pickle", "shutil", "importlib", "builtins"]

/-- The set literal `SAFE_BUILTINS`, in source order. -/
def SAFE_BUILTINS : List String :=
  ["abs", "all", "any", "ascii", "bin", "bool", "bytearray", "bytes",
   "chr", "complex", "dict", "divmod", "enumerate", "filter", "float",
   "format", "frozenset", "hash", "hex", "int", "isinstance", "issubclass",
   "iter", "len", "list", "map", "max", "min", "next", "oct", "ord",
   "pow", "print", "range", "repr", "reversed", "round", "set", "slice",
   "sorted", "str", "sum", "tuple", "type", "zip"]

/-- The `for module in FORBIDDEN_MODULES` loop body of `validate_code`:
first module (in iteration order) for which `f"import {module}" in code or
f"from {module}" in code` holds. -/
def findForbiddenImport (code : String) : List String → Option String
  | [] => Option.none
  | m :: rest =>
      if strContains code ("import " ++ m) || strContains code ("from " ++ m) then
        Option.some m
      else
        findForbiddenImport code rest

/-- Function `validate_code` of `src/server.py`: raises `SecurityError`
(modelled as `Except.error (PyExc.securityErr _)`) on the first failing
textual check, in source order. -/
def validate_code (code : String) : Except PyExc Unit :=
  match findForbiddenImport code FORBIDDEN_MODULES with
  | Option.some m =>
      Except.error (PyExc.securityErr
        ("Importing module '" ++ m ++ "' is not allowed"))
  | Option.none =>
      if strContains code "eval(" || strContains code "exec(" then
        Except.error (PyExc.securityErr "Using eval() or exec() is not allowed")
      else if strContains code "open(" || strContains code "file(" then
        Except.error (PyExc.securityErr "File operations are not allowed")
      else
        Except.ok ()

/-- Function `create_safe_globals` of `src/server.py`: a dict binding
`__builtins__` to the dict of the safe builtins (each `getattr(__builtins__,
name)` an opaque function object) and `print` to a swallowing lambda. -/
def create_safe_globals : PyDict :=
  [("__builtins__", PyVal.dict (SAFE_BUILTINS.map (fun n => (n, PyVal.pyFunc n)))),
   ("print", PyVal.pyFunc "noop_lambda")]

/-- The dict literal `RESOURCE_LIMITS` (values in their source units). -/
def RESOURCE_LIMITS : List (String × Nat) :=
  [("CPU_TIME", 1), ("MEMORY", 100 * 1024 * 1024), ("FILE_SIZE", 1024 * 1024),
   ("PROCESSES", 1), ("OPEN_FILES", 10)]

/-- Interpreter/OS behaviour on one `(code, params)` instance that the
embedding cannot compute: the oracle's fields range over every outcome
CPython allows for the corresponding call, so theorems quantified over the
oracle hold of every possible snippet/OS behaviour, and a concrete oracle
describes one particular snippet's behaviour. -/
structure PyOracle where
  /-- Outcome of the five `resource.setrlimit` calls of `set_resource_limits`
  (they raise `OSError`/`ValueError` — `Exception`-derived — on failure;
  the function re-raises whatever it caught). -/
  setLimits : Except PyExc Unit
  /-- Outcome of `compile(code, "<string>", "exec")`. -/
  compileCode : Except PyExc Unit
  /-- Outcome of `exec(compiled_code, globals_dict)`: the globals dict after
  the snippet's top level ran (exec mutates it in place), or a raise. -/
  execCode : PyDict → Except PyExc PyDict
  /-- Outcome of `f(**args)` for the value found under the key `main`. -/
  call : PyVal → PyDict → Except PyExc PyVal

/-- Function `set_resource_limits` of `src/server.py`: it logs and re-raises
whatever `resource.setrlimit` raised, so the caller observes the oracle's
outcome unchanged. -/
def set_resource_limits (π : PyOracle) : Except PyExc Unit :=
  π.setLimits

/-- Interpreter actions attempted while running `_execute_code_safely`, in
order; used to state that later stages are never reached. -/
inductive Event where
  | limitsAttempted
  | validateAttempted
  | compileAttempted
  | execAttempted (g : PyDict)
  | invokeAttempted (f : PyVal) (args : PyDict)

/-- The two `except` clauses at the end of `_execute_code_safely`:
`except SecurityError` produces the `Security violation:` record (no
traceback field), `except Exception` produces the message/traceback record,
and a `BaseException`-derived raise matches neither clause and propagates. -/
def handleWorkerExc : PyExc → Except PyExc ExecutionResult
  | .securityErr m =>
      Except.ok { status := "error",
                  error := Option.some ("Security violation: " ++ m) }
  | .exc m t =>
      Except.ok { status := "error", error := Option.some m,
                  traceback := Option.some t }
  | .baseExc m t => Except.error (.baseExc m t)

/-- Static method `CodeExecutor._execute_code_safely` of `src/server.py`,
translated step for step: set limits, validate, build and merge globals,
compile, exec, require `main`, invoke it; every raise is routed through the
two `except` clauses (`handleWorkerExc`).  Also returns the list of
attempted interpreter actions. -/
def execute_code_safely (π : PyOracle) (code : String) (params : PyDict) :
    Except PyExc ExecutionResult × List Event :=
  match set_resource_limits π with
  | Except.error e => (handleWorkerExc e, [Event.limitsAttempted])
  | Except.ok _ =>
    match validate_code code with
    | Except.error e =>
        (handleWorkerExc e, [Event.limitsAttempted, Event.validateAttempted])
    | Except.ok _ =>
      let globals_dict := dictUpdate create_safe_globals params
      match π.compileCode with
      | Except.error e =>
          (handleWorkerExc e,
           [Event.limitsAttempted, Event.validateAttempted, Event.compileAttempted])
      | Except.ok _ =>
        match π.execCode globals_dict with
        | Except.error e =>
            (handleWorkerExc e,
             [Event.limitsAttempted, Event.validateAttempted,
              Event.compileAttempted, Event.execAttempted globals_dict])
        | Except.ok g2 =>
          if dictMem g2 "main" then
            match π.call (dictGet g2 "main") params with
            | Except.error e =>
                (handleWorkerExc e,
                 [Event.limitsAttempted, Event.validateAttempted,
                  Event.compileAttempted, Event.execAttempted globals_dict,
                  Event.invokeAttempted (dictGet g2 "main") params])
            | Except.ok v =>
                (Except.ok { status := "success", result := v },
                 [Event.limitsAttempted, Event.validateAttempted,
                  Event.compileAttempted, Event.execAttempted globals_dict,
                  Event.invokeAttempted (dictGet g2 "main") params])
          else
            (Except.ok { status := "error",
                         error := Option.some "No main function defined" },
             [Event.limitsAttempted, Event.validateAttempted,
              Event.compileAttempted, Event.execAttempted globals_dict])

/-- How awaiting the worker future resolved for the supervisor: the worker
ran to completion and its outcome was delivered, or `asyncio.wait_for` hit
the wall-clock deadline first, or the executor machinery itself failed
(e.g. `BrokenProcessPool`, a pickling failure). -/
inductive AwaitOutcome where
  | completed
  | timedOut
  | poolFailure (e : PyExc)

/-- The `except Exception` clause of `execute_code_in_process` (the
`except asyncio.TimeoutError` clause is the `timedOut` case of the caller):
an `Exception`-derived raise becomes the message/traceback record, a
`BaseException`-derived raise propagates. -/
def handleSupervisorExc : PyExc → Except PyExc ExecutionResult
  | .baseExc m t => Except.error (.baseExc m t)
  | e =>
      Except.ok { status := "error", error := Option.some e.message,
                  traceback := Option.some e.trace }

/-- Static method `CodeExecutor.execute_code_in_process` of `src/server.py`:
await the worker running `_execute_code_safely` under
`asyncio.wait_for(..., timeout=RESOURCE_LIMITS['CPU_TIME'])`; a timeout
yields the `Execution timeout` record, a worker-propagated or pool-raised
exception is routed through `except Exception`. -/
def execute_code_in_process (π : PyOracle) (code : String) (params : PyDict)
    (sched : AwaitOutcome) : Except PyExc ExecutionResult :=
  match sched with
  | AwaitOutcome.timedOut =>
      Except.ok { status := "error", error := Option.some "Execution timeout" }
  | AwaitOutcome.poolFailure e => handleSupervisorExc e
  | AwaitOutcome.completed =>
      match (execute_code_safely π code params).fst with
      | Except.ok r => Except.ok r
      | Except.error e => handleSupervisorExc e

/-- Spec-side companion definition (refinement, §4.1 check 1): a character
that can be part of a (dotted) module name. -/
def identChar (c : Char) : Bool :=
  c.isAlphanum || c == '_' || c == '.'

/-- Spec-side companion definition (refinement, §4.1 check 1): the targets
of the `import X`-style import-like statements of a text — every maximal
dotted-identifier chunk immediately following an occurrence of `import `.
Used only to state what the spec's phrase "the target of an import-like
statement" denotes on concrete texts. -/
def importTargetsAux : List Char → List String
  | [] => []
  | c :: cs =>
      if charsLeadWith "import ".toList (c :: cs) then
        String.mk (((c :: cs).drop 7).takeWhile identChar) :: importTargetsAux cs
      else
        importTargetsAux cs

/-- Spec-side companion definition: see `importTargetsAux`. -/
def importTargets (code : String) : List String :=
  importTargetsAux code.toList

/- Concrete snippets and interpreter behaviours used to instantiate the
general theorems (witnesses and counterexamples).  Each oracle describes the
CPython behaviour of the snippet named next to it. -/

/-- An inert snippet/behaviour: compiles, defines nothing, `main` absent. -/
def trivialOracle : PyOracle :=
  { setLimits := Except.ok ()
    compileCode := Except.ok ()
    execCode := fun g => Except.ok g
    call := fun _ _ => Except.ok PyVal.none }

/-- Concrete scenario 1 of the spec. -/
def sumSnippet : String := "def main(x, y): return \x7b'sum': x + y\x7d"

/-- Params of concrete scenario 1. -/
def sumParams : PyDict := [("x", PyVal.int 10), ("y", PyVal.int 20)]

/-- CPython behaviour of `sumSnippet`: its top level defines `main`, and the
entry point returns the dict with the sum of the named arguments. -/
def sumOracle : PyOracle :=
  { setLimits := Except.ok ()
    compileCode := Except.ok ()
    execCode := fun g => Except.ok (dictSet g "main" (PyVal.pyFunc "main"))
    call := fun f args =>
      match f, dictGet args "x", dictGet args "y" with
      | PyVal.pyFunc "main", PyVal.int a, PyVal.int b =>
          Except.ok (PyVal.dict [("sum", PyVal.int (a + b))])
      | _, _, _ =>
          Except.error (PyExc.exc "TypeError"
            "Traceback (most recent call last): TypeError") }

/-- A snippet whose `main` walks `object.__subclasses__()` (plain attribute
access on a tuple literal: `().__class__.__mro__[1]` is `object`, and no
builtin name is needed) and raises the class named `BaseException` it finds
there — `BaseException` is a direct subclass of `object`, so it is in that
list.  The text contains none of the validator's patterns. -/
def baseExcSnippet : String :=
  "def main():\n    for c in ().__class__.__mro__[1].__subclasses__():\n        if c.__name__ == 'BaseException':\n            raise c()"

/-- CPython behaviour of `baseExcSnippet`: its top level defines `main`,
and invoking `main` raises `BaseException()` — which is outside the
`Exception` hierarchy, so no `except Exception` clause catches it
(`str(BaseException()) = ""`). -/
def baseExcOracle : PyOracle :=
  { setLimits := Except.ok ()
    compileCode := Except.ok ()
    execCode := fun g => Except.ok (dictSet g "main" (PyVal.pyFunc "main"))
    call := fun _ _ =>
      Except.error (PyExc.baseExc ""
        "Traceback (most recent call last): BaseException") }

/-- A valid snippet that defines no `main`. -/
def noMainSnippet : String := "x = 1"

/-- A params mapping that itself carries a `main` key (a JSON number). -/
def mainKeyParams : PyDict := [("main", PyVal.int 0)]

/-- CPython behaviour of `noMainSnippet`: the top level binds only `x`;
calling a non-function value raises `TypeError`. -/
def noMainOracle : PyOracle :=
  { setLimits := Except.ok ()
    compileCode := Except.ok ()
    execCode := fun g => Except.ok (dictSet g "x" (PyVal.int 1))
    call := fun f _ =>
      match f with
      | PyVal.pyFunc _ => Except.ok PyVal.none
      | _ =>
          Except.error (PyExc.exc "'int' object is not callable"
            "Traceback (most recent call last): TypeError: 'int' object is not callable") }

/-- A snippet whose `main` returns `None`. -/
def noneSnippet : String := "def main(): return None"

/-- CPython behaviour of `noneSnippet`. -/
def noneOracle : PyOracle :=
  { setLimits := Except.ok ()
    compileCode := Except.ok ()
    execCode := fun g => Except.ok (dictSet g "main" (PyVal.pyFunc "main"))
    call := fun _ _ => Except.ok PyVal.none }

/-- A behaviour in which `resource.setrlimit` fails with a `ValueError`
(an `Exception`-derived class). -/
def limitFailOracle : PyOracle :=
  { setLimits := Except.error (PyExc.exc
      "not allowed to raise maximum limit"
      "Traceback (most recent call last): ValueError: not allowed to raise maximum limit")
    compileCode := Except.ok ()
    execCode := fun g => Except.ok g
    call := fun _ _ => Except.ok PyVal.none }

/-- A params mapping colliding with both fixed bindings of the restricted
environment. -/
def overrideParams : PyDict :=
  [("print", PyVal.int 5), ("__builtins__", PyVal.int 6)]

/-- The record `execute_code_in_process` returns when the deadline fires. -/
def timeoutRecord : ExecutionResult :=
  { status := "error", error := Option.some "Execution timeout" }

/- Association-list lemmas for the Python dict model. -/

theorem dictGet_dictSet_self (d : PyDict) (k : String) (v : PyVal) :
    dictGet (dictSet d k v) k = v := by
  induction d with
  | nil => simp [dictSet, dictGet]
  | cons p rest ih =>
      obtain ⟨k1, v1⟩ := p
      by_cases h : k1 = k
      · simp [dictSet, h, dictGet]
      · simp [dictSet, h, dictGet, ih]

theorem dictGet_dictSet_ne (d : PyDict) (k : String) (v : PyVal) (k2 : String)
    (h : k2 ≠ k) : dictGet (dictSet d k v) k2 = dictGet d k2 := by
  induction d with
  | nil =>
      have hne : ¬ (k = k2) := fun hh => h hh.symm
      simp [dictSet, dictGet, hne]
  | cons p rest ih =>
      obtain ⟨k1, v1⟩ := p
      by_cases h1 : k1 = k
      · subst h1
        have hne : ¬ (k1 = k2) := fun hh => h hh.symm
        simp [dictSet, dictGet, hne]
      · simp only [dictSet, if_neg h1]
        by_cases h2 : k1 = k2
        · simp [dictGet, h2]
        · simp [dictGet, h2, ih]

theorem dictMem_eq_true_iff (d : PyDict) (k : String) :
    dictMem d k = true ↔ k ∈ d.map Prod.fst := by
  induction d with
  | nil => simp [dictMem]
  | cons p rest ih =>
      obtain ⟨k1, v1⟩ := p
      by_cases h : k1 = k
      · subst h
        simp [dictMem]
      · have hne : ¬ (k = k1) := fun hh => h hh.symm
        simp [dictMem, h, ih, hne]

theorem dictGet_dictUpdate_not_mem (ps : PyDict) (d : PyDict) (k : String)
    (h : dictMem ps k = false) : dictGet (dictUpdate d ps) k = dictGet d k := by
  induction ps generalizing d with
  | nil => rfl
  | cons p ps ih =>
      obtain ⟨k0, v0⟩ := p
      by_cases h0 : k0 = k
      · simp [dictMem, h0] at h
      · have h1 : dictMem ps k = false := by simpa [dictMem, h0] using h
        have hstep : dictUpdate d ((k0, v0) :: ps) = dictUpdate (dictSet d k0 v0) ps := rfl
        rw [hstep, ih _ h1, dictGet_dictSet_ne _ _ _ _ (fun hh => h0 hh.symm)]

theorem dictGet_dictUpdate_mem (ps : PyDict) (d : PyDict) (k : String)
    (hnd : (ps.map Prod.fst).Nodup) (h : dictMem ps k = true) :
    dictGet (dictUpdate d ps) k = dictGet ps k := by
  induction ps generalizing d with
  | nil => simp [dictMem] at h
  | cons p ps ih =>
      obtain ⟨k0, v0⟩ := p
      rw [List.map_cons, List.nodup_cons] at hnd
      obtain ⟨hk0, hnd2⟩ := hnd
      have hstep : dictUpdate d ((k0, v0) :: ps) = dictUpdate (dictSet d k0 v0) ps := rfl
      by_cases h0 : k0 = k
      · subst h0
        have hmem : dictMem ps k0 = false := by
          cases hq : dictMem ps k0 with
          | false => rfl
          | true => exact absurd ((dictMem_eq_true_iff _ _).mp hq) hk0
        rw [hstep, dictGet_dictUpdate_not_mem _ _ _ hmem, dictGet_dictSet_self]
        simp [dictGet]
      · have h1 : dictMem ps k = true := by simpa [dictMem, h0] using h
        rw [hstep, ih _ hnd2 h1]
        simp [dictGet, h0]

/- Substring lemmas for the Python `in` model. -/

theorem charsLeadWith_append (p rest : List Char) :
    charsLeadWith p (p ++ rest) = true := by
  induction p with
  | nil => rfl
  | cons a as ih => simp [charsLeadWith, ih]

theorem charsHave_self (p post : List Char) : charsHave p (p ++ post) = true := by
  cases p with
  | nil =>
      cases post with
      | nil => rfl
      | cons b bs => simp [charsHave, charsLeadWith]
  | cons a as =>
      have h := charsLeadWith_append (a :: as) post
      simp only [List.cons_append] at h
      simp [charsHave, h]

theorem charsHave_append_left (p x y : List Char) (h : charsHave p y = true) :
    charsHave p (x ++ y) = true := by
  induction x with
  | nil => exact h
  | cons b bs ih => simp [charsHave, ih]

/- Characterizations of the textual validator. -/

theorem findForbiddenImport_eq_none (code : String) (ms : List String) :
    findForbiddenImport code ms = Option.none ↔
      ∀ m ∈ ms, strContains code ("import " ++ m) = false ∧
                strContains code ("from " ++ m) = false := by
  induction ms with
  | nil => simp [findForbiddenImport]
  | cons m ms ih =>
      by_cases h : (strContains code ("import " ++ m) ||
                    strContains code ("from " ++ m)) = true
      · rcases Bool.or_eq_true_iff.mp h with h1 | h1 <;>
          simp [findForbiddenImport, h, h1]
      · have h2 : strContains code ("import " ++ m) = false ∧
                  strContains code ("from " ++ m) = false := by
          constructor <;> [skip; skip] <;>
            (cases hq : strContains code ("import " ++ m) <;>
             cases hr : strContains code ("from " ++ m) <;>
             simp_all)
        simp [findForbiddenImport, h, ih, h2.1, h2.2]

theorem findForbiddenImport_some (code : String) (ms : List String) (m : String)
    (h : findForbiddenImport code ms = Option.some m) :
    m ∈ ms ∧ (strContains code ("import " ++ m) = true ∨
              strContains code ("from " ++ m) = true) := by
  induction ms with
  | nil => simp [findForbiddenImport] at h
  | cons m0 ms ih =>
      by_cases h0 : (strContains code ("import " ++ m0) ||
                     strContains code ("from " ++ m0)) = true
      · simp only [findForbiddenImport, h0, if_true, Option.some.injEq] at h
        subst h
        exact ⟨List.mem_cons_self _ _, Bool.or_eq_true_iff.mp h0⟩
      · simp only [findForbiddenImport, h0, if_false] at h
        obtain ⟨hmem, hc⟩ := ih h
        exact ⟨List.mem_cons_of_mem _ hmem, hc⟩

theorem strContains_mid (pre mid post : String) :
    strContains (pre ++ (mid ++ post)) mid = true := by
  unfold strContains
  have h : (pre ++ (mid ++ post)).toList = pre.toList ++ (mid.toList ++ post.toList) := by
    simp [String.toList, String.data_append]
  rw [h]
  exact charsHave_append_left _ _ _ (charsHave_self _ _)

theorem validate_code_shape (code : String) :
    validate_code code = Except.ok () ∨
      ∃ m, validate_code code = Except.error (PyExc.securityErr m) := by
  unfold validate_code
  cases findForbiddenImport code FORBIDDEN_MODULES with
  | some m => exact Or.inr ⟨_, rfl⟩
  | none =>
      by_cases h1 : (strContains code "eval(" || strContains code "exec(") = true
      · rw [if_pos h1]
        exact Or.inr ⟨_, rfl⟩
      · rw [if_neg h1]
        by_cases h2 : (strContains code "open(" || strContains code "file(") = true
        · rw [if_pos h2]
          exact Or.inr ⟨_, rfl⟩
        · rw [if_neg h2]
          exact Or.inl rfl

theorem strContains_inner (a b mid post : String) :
    strContains (a ++ (b ++ (mid ++ post))) mid = true := by
  unfold strContains
  have h : (a ++ (b ++ (mid ++ post))).toList =
      a.toList ++ (b.toList ++ (mid.toList ++ post.toList)) := by
    simp [String.toList, String.data_append]
  rw [h]
  exact charsHave_append_left _ _ _ (charsHave_append_left _ _ _ (charsHave_self _ _))

theorem handleWorkerExc_shape (e : PyExc) (r : ExecutionResult)
    (h : handleWorkerExc e = Except.ok r) :
    r.status = "error" ∧ r.result = PyVal.none := by
  cases e with
  | securityErr m =>
      obtain rfl := Except.ok.inj h
      exact ⟨rfl, rfl⟩
  | exc m t =>
      obtain rfl := Except.ok.inj h
      exact ⟨rfl, rfl⟩
  | baseExc m t => simp [handleWorkerExc] at h

theorem worker_result_shape (π : PyOracle) (code : String) (params : PyDict)
    (r : ExecutionResult)
    (h : (execute_code_safely π code params).fst = Except.ok r) :
    (r.status = "success" ∧ r.error = Option.none ∧ r.traceback = Option.none)
    ∨ (r.status = "error" ∧ r.result = PyVal.none) := by
  simp only [execute_code_safely, set_resource_limits] at h
  split at h
  · exact Or.inr (handleWorkerExc_shape _ _ h)
  · split at h
    · exact Or.inr (handleWorkerExc_shape _ _ h)
    · split at h
      · exact Or.inr (handleWorkerExc_shape _ _ h)
      · split at h
        · exact Or.inr (handleWorkerExc_shape _ _ h)
        · split at h
          · split at h
            · exact Or.inr (handleWorkerExc_shape _ _ h)
            · obtain rfl := Except.ok.inj h
              exact Or.inl ⟨rfl, rfl, rfl⟩
          · obtain rfl := Except.ok.inj h
            exact Or.inr ⟨rfl, rfl⟩

theorem pipeline_result_shape (π : PyOracle) (code : String) (params : PyDict)
    (sched : AwaitOutcome) (r : ExecutionResult)
    (h : execute_code_in_process π code params sched = Except.ok r) :
    (r.status = "success" ∧ r.error = Option.none ∧ r.traceback = Option.none)
    ∨ (r.status = "error" ∧ r.result = PyVal.none) := by
  cases sched with
  | timedOut =>
      obtain rfl := Except.ok.inj h
      exact Or.inr ⟨rfl, rfl⟩
  | poolFailure e =>
      cases e with
      | securityErr m =>
          obtain rfl := Except.ok.inj h
          exact Or.inr ⟨rfl, rfl⟩
      | exc m t =>
          obtain rfl := Except.ok.inj h
          exact Or.inr ⟨rfl, rfl⟩
      | baseExc m t => simp [execute_code_in_process, handleSupervisorExc] at h
  | completed =>
      cases hw : (execute_code_safely π code params).fst with
      | ok r2 =>
          have h2 : (Except.ok r2 : Except PyExc ExecutionResult) = Except.ok r := by
            simpa [execute_code_in_process, hw] using h
          obtain rfl := Except.ok.inj h2
          exact worker_result_shape _ _ _ _ hw
      | error e =>
          have h2 : handleSupervisorExc e = Except.ok r := by
            simpa [execute_code_in_process, hw] using h
          cases e with
          | securityErr m =>
              obtain rfl := Except.ok.inj h2
              exact Or.inr ⟨rfl, rfl⟩
          | exc m t =>
              obtain rfl := Except.ok.inj h2
              exact Or.inr ⟨rfl, rfl⟩
          | baseExc m t => simp [handleSupervisorExc] at h2

theorem worker_total (π : PyOracle) (code : String) (params : PyDict)
    (h1 : ∀ e, π.setLimits = Except.error e → e.isBase = false)
    (h2 : ∀ e, π.compileCode = Except.error e → e.isBase = false)
    (h3 : ∀ g e, π.execCode g = Except.error e → e.isBase = false)
    (h4 : ∀ f a e, π.call f a = Except.error e → e.isBase = false) :
    ∃ r, (execute_code_safely π code params).fst = Except.ok r := by
  have hexc : ∀ e, PyExc.isBase e = false → ∃ r, handleWorkerExc e = Except.ok r := by
    intro e he
    cases e with
    | securityErr m => exact ⟨_, rfl⟩
    | exc m t => exact ⟨_, rfl⟩
    | baseExc m t => simp [PyExc.isBase] at he
  cases hs : π.setLimits with
  | error e =>
      obtain ⟨r, hr⟩ := hexc e (h1 e hs)
      exact ⟨r, by simp [execute_code_safely, set_resource_limits, hs, hr]⟩
  | ok u =>
    cases hv : validate_code code with
    | error e =>
        have hb : PyExc.isBase e = false := by
          rcases validate_code_shape code with hok | ⟨m, hm⟩
          · rw [hok] at hv
            cases hv
          · rw [hm] at hv
            obtain rfl := Except.error.inj hv
            rfl
        obtain ⟨r, hr⟩ := hexc e hb
        exact ⟨r, by simp [execute_code_safely, set_resource_limits, hs, hv, hr]⟩
    | ok u2 =>
      cases hc : π.compileCode with
      | error e =>
          obtain ⟨r, hr⟩ := hexc e (h2 e hc)
          exact ⟨r, by simp [execute_code_safely, set_resource_limits, hs, hv, hc, hr]⟩
      | ok u3 =>
        cases he : π.execCode (dictUpdate create_safe_globals params) with
        | error e =>
            obtain ⟨r, hr⟩ := hexc e (h3 _ e he)
            exact ⟨r, by simp [execute_code_safely, set_resource_limits, hs, hv, hc, he, hr]⟩
        | ok g2 =>
          cases hm : dictMem g2 "main" with
          | false =>
              refine ⟨{ status := "error",
                        error := Option.some "No main function defined" }, ?_⟩
              simp [execute_code_safely, set_resource_limits, hs, hv, hc, he, hm]
          | true =>
            cases hcall : π.call (dictGet g2 "main") params with
            | error e =>
                obtain ⟨r, hr⟩ := hexc e (h4 _ _ e hcall)
                exact ⟨r, by
                  simp [execute_code_safely, set_resource_limits, hs, hv, hc, he, hm,
                    hcall, hr]⟩
            | ok v =>
                refine ⟨{ status := "success", result := v }, ?_⟩
                simp [execute_code_safely, set_resource_limits, hs, hv, hc, he, hm, hcall]

theorem mem_to_dict_cases (st : String) (res : PyVal) (err tb : Option String)
    (kv : String × PyVal)
    (h : kv ∈ (ExecutionResult.mk st res err tb).to_dict) :
    kv = ("status", PyVal.str st)
    ∨ (kv = ("result", res) ∧ res.isNone = false)
    ∨ (∃ e, err = Option.some e ∧ kv = ("error", PyVal.str e))
    ∨ (∃ t, tb = Option.some t ∧ kv = ("traceback", PyVal.str t)) := by
  cases hres : res.isNone <;> cases err <;> cases tb <;>
    simp_all [ExecutionResult.to_dict]

theorem to_dict_result_key (r : ExecutionResult) (h : r.result.isNone = true) :
    dictMem r.to_dict "result" = false := by
  obtain ⟨st, res, err, tb⟩ := r
  cases err <;> cases tb <;>
    simp_all [ExecutionResult.to_dict, dictMem]

theorem to_dict_error_key (r : ExecutionResult) (h : r.error = Option.none) :
    dictMem r.to_dict "error" = false := by
  obtain ⟨st, res, err, tb⟩ := r
  cases hres : res.isNone <;> cases tb <;>
    simp_all [ExecutionResult.to_dict, dictMem]

theorem to_dict_traceback_key (r : ExecutionResult) (h : r.traceback = Option.none) :
    dictMem r.to_dict "traceback" = false := by
  obtain ⟨st, res, err, tb⟩ := r
  cases hres : res.isNone <;> cases err <;>
    simp_all [ExecutionResult.to_dict, dictMem]

/-- C1: for every snippet behaviour in which `main` is defined and returns
normally, the pipeline (`_execute_code_safely` delivered through
`execute_code_in_process`) yields the success outcome carrying exactly the
value `main` returned, and the entry point is invoked with exactly the
`params` mapping bound by name (`globals_dict['main'](**params)`). -/
theorem c1_success_value_and_params (π : PyOracle) (code : String)
    (params : PyDict) (g2 : PyDict) (v : PyVal)
    (hlim : π.setLimits = Except.ok ())
    (hval : validate_code code = Except.ok ())
    (hcomp : π.compileCode = Except.ok ())
    (hexec : π.execCode (dictUpdate create_safe_globals params) = Except.ok g2)
    (hmain : dictMem g2 "main" = true)
    (hcall : π.call (dictGet g2 "main") params = Except.ok v) :
    execute_code_in_process π code params AwaitOutcome.completed =
      Except.ok { status := "success", result := v } ∧
    Event.invokeAttempted (dictGet g2 "main") params ∈
      (execute_code_safely π code params).snd := by
  constructor
  · simp [execute_code_in_process, execute_code_safely, set_resource_limits,
      hlim, hval, hcomp, hexec, hmain, hcall]
  · simp [execute_code_safely, set_resource_limits,
      hlim, hval, hcomp, hexec, hmain, hcall]

/-- Witness for C1: concrete scenario 1 of the spec —
`def main(x, y): return {'sum': x + y}` with params x=10, y=20 yields
success with value `{'sum': 30}`, and `main` is invoked with exactly those
params. -/
theorem c1_success_value_and_params_witness :
    execute_code_in_process sumOracle sumSnippet sumParams AwaitOutcome.completed =
      Except.ok { status := "success",
                  result := PyVal.dict [("sum", PyVal.int 30)] } ∧
    Event.invokeAttempted (PyVal.pyFunc "main") sumParams ∈
      (execute_code_safely sumOracle sumSnippet sumParams).snd :=
  c1_success_value_and_params sumOracle sumSnippet sumParams
    (dictSet (dictUpdate create_safe_globals sumParams) "main" (PyVal.pyFunc "main"))
    (PyVal.dict [("sum", PyVal.int 30)])
    rfl rfl rfl rfl rfl rfl

/-- C3: for every snippet containing a denylisted import pattern (textually,
`import m` or `from m` for a forbidden module `m`) and every params mapping,
the worker yields the `Security violation` outcome whose message names an
offending forbidden module, the same record crosses the supervisor, and the
snippet is never compiled, executed, or invoked — validation short-circuits
first (assuming the resource limits installed normally, the step that
precedes validation). -/
theorem c3_forbidden_import_short_circuits (π : PyOracle) (code : String)
    (params : PyDict) (m : String)
    (hlim : π.setLimits = Except.ok ())
    (hm : m ∈ FORBIDDEN_MODULES)
    (hsub : strContains code ("import " ++ m) = true ∨
            strContains code ("from " ++ m) = true) :
    ∃ mr, mr ∈ FORBIDDEN_MODULES ∧
      (strContains code ("import " ++ mr) = true ∨
       strContains code ("from " ++ mr) = true) ∧
      (execute_code_safely π code params).fst =
        Except.ok { status := "error",
                    error := Option.some ("Security violation: " ++
                      ("Importing module '" ++ (mr ++ "' is not allowed"))) } ∧
      strContains ("Security violation: " ++
        ("Importing module '" ++ (mr ++ "' is not allowed"))) mr = true ∧
      execute_code_in_process π code params AwaitOutcome.completed =
        Except.ok { status := "error",
                    error := Option.some ("Security violation: " ++
                      ("Importing module '" ++ (mr ++ "' is not allowed"))) } ∧
      Event.compileAttempted ∉ (execute_code_safely π code params).snd ∧
      (∀ g, Event.execAttempted g ∉ (execute_code_safely π code params).snd) ∧
      (∀ f a, Event.invokeAttempted f a ∉ (execute_code_safely π code params).snd) := by
  cases hfind : findForbiddenImport code FORBIDDEN_MODULES with
  | none =>
      exfalso
      have hall := (findForbiddenImport_eq_none code FORBIDDEN_MODULES).mp hfind m hm
      rcases hsub with hs | hs
      · rw [hall.1] at hs
        cases hs
      · rw [hall.2] at hs
        cases hs
  | some mr =>
      obtain ⟨hmem, hc⟩ := findForbiddenImport_some code FORBIDDEN_MODULES mr hfind
      have hvc : validate_code code = Except.error (PyExc.securityErr
          ("Importing module '" ++ (mr ++ "' is not allowed"))) := by
        unfold validate_code
        rw [hfind]
        rfl
      have hw : execute_code_safely π code params =
          (Except.ok { status := "error",
                       error := Option.some ("Security violation: " ++
                         ("Importing module '" ++ (mr ++ "' is not allowed"))) },
           [Event.limitsAttempted, Event.validateAttempted]) := by
        simp [execute_code_safely, set_resource_limits, hlim, hvc, handleWorkerExc]
      refine ⟨mr, hmem, hc, ?_, ?_, ?_, ?_, ?_, ?_⟩
      · rw [hw]
      · exact strContains_inner "Security violation: " "Importing module '" mr
          "' is not allowed"
      · simp [execute_code_in_process, hw]
      · simp [hw]
      · intro g
        simp [hw]
      · intro f a
        simp [hw]

/-- Witness for C3: concrete scenario 2 of the spec — a snippet importing
`os` is rejected with a message naming `os` and is never compiled or run. -/
theorem c3_forbidden_import_short_circuits_witness :
    ∃ mr, mr ∈ FORBIDDEN_MODULES ∧
      (strContains "import os\ndef main(): return os.listdir('.')"
         ("import " ++ mr) = true ∨
       strContains "import os\ndef main(): return os.listdir('.')"
         ("from " ++ mr) = true) ∧
      (execute_code_safely trivialOracle
         "import os\ndef main(): return os.listdir('.')" []).fst =
        Except.ok { status := "error",
                    error := Option.some ("Security violation: " ++
                      ("Importing module '" ++ (mr ++ "' is not allowed"))) } ∧
      strContains ("Security violation: " ++
        ("Importing module '" ++ (mr ++ "' is not allowed"))) mr = true ∧
      execute_code_in_process trivialOracle
          "import os\ndef main(): return os.listdir('.')" []
          AwaitOutcome.completed =
        Except.ok { status := "error",
                    error := Option.some ("Security violation: " ++
                      ("Importing module '" ++ (mr ++ "' is not allowed"))) } ∧
      Event.compileAttempted ∉ (execute_code_safely trivialOracle
        "import os\ndef main(): return os.listdir('.')" []).snd ∧
      (∀ g, Event.execAttempted g ∉ (execute_code_safely trivialOracle
        "import os\ndef main(): return os.listdir('.')" []).snd) ∧
      (∀ f a, Event.invokeAttempted f a ∉ (execute_code_safely trivialOracle
        "import os\ndef main(): return os.listdir('.')" []).snd) :=
  c3_forbidden_import_short_circuits trivialOracle
    "import os\ndef main(): return os.listdir('.')" [] "os"
    rfl (by decide) (Or.inl (by decide))

/-- C4: if installing the resource limits fails (with the
`Exception`-derived error `resource.setrlimit` raises), the execution
attempt fails with an error outcome carrying that message, and the
submitted code is never validated, compiled, executed, or invoked. -/
theorem c4_limit_failure_aborts (π : PyOracle) (code : String) (params : PyDict)
    (m t : String)
    (hlim : π.setLimits = Except.error (PyExc.exc m t)) :
    (execute_code_safely π code params).fst =
      Except.ok { status := "error", error := Option.some m,
                  traceback := Option.some t } ∧
    execute_code_in_process π code params AwaitOutcome.completed =
      Except.ok { status := "error", error := Option.some m,
                  traceback := Option.some t } ∧
    (execute_code_safely π code params).snd = [Event.limitsAttempted] ∧
    Event.validateAttempted ∉ (execute_code_safely π code params).snd ∧
    Event.compileAttempted ∉ (execute_code_safely π code params).snd ∧
    (∀ g, Event.execAttempted g ∉ (execute_code_safely π code params).snd) ∧
    (∀ f a, Event.invokeAttempted f a ∉ (execute_code_safely π code params).snd) := by
  have hw : execute_code_safely π code params =
      (Except.ok { status := "error", error := Option.some m,
                   traceback := Option.some t },
       [Event.limitsAttempted]) := by
    simp [execute_code_safely, set_resource_limits, hlim, handleWorkerExc]
  refine ⟨by rw [hw], ?_, by rw [hw], ?_, ?_, ?_, ?_⟩
  · simp [execute_code_in_process, hw]
  · simp [hw]
  · simp [hw]
  · intro g
    simp [hw]
  · intro f a
    simp [hw]

/-- Witness for C4: a failing `setrlimit` (ValueError) aborts the request
before any stage of the snippet runs. -/
theorem c4_limit_failure_aborts_witness :
    (execute_code_safely limitFailOracle sumSnippet sumParams).fst =
      Except.ok { status := "error",
                  error := Option.some "not allowed to raise maximum limit",
                  traceback := Option.some
                    "Traceback (most recent call last): ValueError: not allowed to raise maximum limit" } ∧
    execute_code_in_process limitFailOracle sumSnippet sumParams
        AwaitOutcome.completed =
      Except.ok { status := "error",
                  error := Option.some "not allowed to raise maximum limit",
                  traceback := Option.some
                    "Traceback (most recent call last): ValueError: not allowed to raise maximum limit" } ∧
    (execute_code_safely limitFailOracle sumSnippet sumParams).snd =
      [Event.limitsAttempted] ∧
    Event.validateAttempted ∉
      (execute_code_safely limitFailOracle sumSnippet sumParams).snd ∧
    Event.compileAttempted ∉
      (execute_code_safely limitFailOracle sumSnippet sumParams).snd ∧
    (∀ g, Event.execAttempted g ∉
      (execute_code_safely limitFailOracle sumSnippet sumParams).snd) ∧
    (∀ f a, Event.invokeAttempted f a ∉
      (execute_code_safely limitFailOracle sumSnippet sumParams).snd) :=
  c4_limit_failure_aborts limitFailOracle sumSnippet sumParams
    "not allowed to raise maximum limit"
    "Traceback (most recent call last): ValueError: not allowed to raise maximum limit"
    rfl

/-- Counterexample for C5: the claim "every failure arising inside the
isolated context, including any exception the snippet raises, is converted
into an ExecutionResult; `execute_code_in_process` never propagates a raw
exception from submitted code" is false: a snippet whose `main` raises
`BaseException()` (the class is a direct subclass of `object`, so restricted
code reaches it through `object.__subclasses__()` without any builtin)
escapes both `except SecurityError`/`except Exception` in the worker and
`except asyncio.TimeoutError`/`except Exception` in the supervisor, so the
call propagates the raw exception instead of returning a result record. -/
theorem c5_base_exception_escapes :
    execute_code_in_process baseExcOracle baseExcSnippet [] AwaitOutcome.completed =
      Except.error (PyExc.baseExc ""
        "Traceback (most recent call last): BaseException") ∧
    validate_code baseExcSnippet = Except.ok () := by
  constructor
  · rfl
  · rfl

/-- C5 (amended): provided no step of the isolated execution raises a
`BaseException` outside the `Exception` hierarchy (which is what every
ordinary snippet failure — `SyntaxError`, `TypeError`, `ZeroDivisionError`,
`SecurityError`, `MemoryError`, … — satisfies), `execute_code_in_process`
always returns a well-formed `ExecutionResult` whose status is `success`
or `error`, for every code text, params mapping, and scheduling outcome. -/
theorem c5_exception_totality (π : PyOracle) (code : String) (params : PyDict)
    (sched : AwaitOutcome)
    (h1 : ∀ e, π.setLimits = Except.error e → PyExc.isBase e = false)
    (h2 : ∀ e, π.compileCode = Except.error e → PyExc.isBase e = false)
    (h3 : ∀ g e, π.execCode g = Except.error e → PyExc.isBase e = false)
    (h4 : ∀ f a e, π.call f a = Except.error e → PyExc.isBase e = false)
    (h5 : ∀ e, sched = AwaitOutcome.poolFailure e → PyExc.isBase e = false) :
    ∃ r, execute_code_in_process π code params sched = Except.ok r ∧
         (r.status = "success" ∨ r.status = "error") := by
  cases sched with
  | timedOut => exact ⟨_, rfl, Or.inr rfl⟩
  | poolFailure e =>
      have hb := h5 e rfl
      cases e with
      | securityErr m => exact ⟨_, rfl, Or.inr rfl⟩
      | exc m t => exact ⟨_, rfl, Or.inr rfl⟩
      | baseExc m t => simp [PyExc.isBase] at hb
  | completed =>
      obtain ⟨r, hr⟩ := worker_total π code params h1 h2 h3 h4
      refine ⟨r, ?_, ?_⟩
      · simp [execute_code_in_process, hr]
      · rcases worker_result_shape π code params r hr with ⟨hsucc, _, _⟩ | ⟨herr, _⟩
        · exact Or.inl hsucc
        · exact Or.inr herr

/-- Witness for C5 (amended): the `None`-returning snippet, whose steps all
complete or raise ordinary exceptions, yields a well-formed result. -/
theorem c5_exception_totality_witness :
    ∃ r, execute_code_in_process noneOracle noneSnippet [] AwaitOutcome.completed =
           Except.ok r ∧ (r.status = "success" ∨ r.status = "error") :=
  c5_exception_totality noneOracle noneSnippet [] AwaitOutcome.completed
    (fun _ he => Except.noConfusion he)
    (fun _ he => Except.noConfusion he)
    (fun _ _ he => Except.noConfusion he)
    (fun _ _ _ he => Except.noConfusion he)
    (fun _ he => AwaitOutcome.noConfusion he)

/-- Counterexample for C6: the claim "for every snippet that passes
validation and executes without defining `main`, and EVERY params mapping,
execute yields the `No main function defined` error and no entry point is
invoked" is false: with the valid snippet `x = 1` (which defines no `main`)
and the params mapping `{'main': 0}`, the merged globals contain the key
`main`, so the `'main' not in globals_dict` guard does not fire; instead the
executor invokes the params value `0`, producing a `TypeError` record. -/
theorem c6_params_main_key_counterexample :
    ∃ r, (execute_code_safely noMainOracle noMainSnippet mainKeyParams).fst =
           Except.ok r ∧
         r.error ≠ Option.some "No main function defined" ∧
         Event.invokeAttempted (PyVal.int 0) mainKeyParams ∈
           (execute_code_safely noMainOracle noMainSnippet mainKeyParams).snd := by
  refine ⟨{ status := "error",
            error := Option.some "'int' object is not callable",
            traceback := Option.some
              "Traceback (most recent call last): TypeError: 'int' object is not callable" },
          rfl, by decide, ?_⟩
  have htr : (execute_code_safely noMainOracle noMainSnippet mainKeyParams).snd =
      [Event.limitsAttempted, Event.validateAttempted, Event.compileAttempted,
       Event.execAttempted (dictUpdate create_safe_globals mainKeyParams),
       Event.invokeAttempted (PyVal.int 0) mainKeyParams] := rfl
  rw [htr]
  simp

/-- C6 (amended): for every snippet that passes validation, compiles, and
executes leaving no binding named `main` in the globals — in particular the
snippet defines no `main` AND the params mapping carries no `main` key —
the worker yields the `No main function defined` error outcome and no entry
point is invoked. -/
theorem c6_no_main_runtime_error (π : PyOracle) (code : String) (params : PyDict)
    (g2 : PyDict)
    (hlim : π.setLimits = Except.ok ())
    (hval : validate_code code = Except.ok ())
    (hcomp : π.compileCode = Except.ok ())
    (hexec : π.execCode (dictUpdate create_safe_globals params) = Except.ok g2)
    (hmain : dictMem g2 "main" = false) :
    (execute_code_safely π code params).fst =
      Except.ok { status := "error",
                  error := Option.some "No main function defined" } ∧
    execute_code_in_process π code params AwaitOutcome.completed =
      Except.ok { status := "error",
                  error := Option.some "No main function defined" } ∧
    (∀ f a, Event.invokeAttempted f a ∉ (execute_code_safely π code params).snd) := by
  have hw : execute_code_safely π code params =
      (Except.ok { status := "error",
                   error := Option.some "No main function defined" },
       [Event.limitsAttempted, Event.validateAttempted, Event.compileAttempted,
        Event.execAttempted (dictUpdate create_safe_globals params)]) := by
    simp [execute_code_safely, set_resource_limits, hlim, hval, hcomp, hexec, hmain]
  refine ⟨by rw [hw], ?_, ?_⟩
  · simp [execute_code_in_process, hw]
  · intro f a
    simp [hw]

/-- Witness for C6 (amended): the snippet `x = 1` with an empty params
mapping yields the `No main function defined` error and never invokes an
entry point. -/
theorem c6_no_main_runtime_error_witness :
    (execute_code_safely noMainOracle noMainSnippet []).fst =
      Except.ok { status := "error",
                  error := Option.some "No main function defined" } ∧
    execute_code_in_process noMainOracle noMainSnippet [] AwaitOutcome.completed =
      Except.ok { status := "error",
                  error := Option.some "No main function defined" } ∧
    (∀ f a, Event.invokeAttempted f a ∉
      (execute_code_safely noMainOracle noMainSnippet []).snd) :=
  c6_no_main_runtime_error noMainOracle noMainSnippet []
    (dictSet (dictUpdate create_safe_globals []) "x" (PyVal.int 1))
    rfl rfl rfl rfl (by decide)

/-- Counterexample for C7: the claim says the validator's check (1) rejects
exactly when a denylisted module is the *target* of an import-like
statement, and in particular that a text whose import targets are all
allowed is not rejected by check (1).  The code tests raw substrings, so
the text `import osmium` — whose only import target is `osmium`, which is
not denylisted, and which contains no dynamic-evaluation invocation and no
file-opening call — is nonetheless rejected (the substring `import os`
matches the forbidden module `os`). -/
theorem c7_substring_counterexample :
    validate_code "import osmium" ≠ Except.ok () ∧
    importTargets "import osmium" = ["osmium"] ∧
    ¬ ("osmium" ∈ FORBIDDEN_MODULES) ∧
    strContains "import osmium" "eval(" = false ∧
    strContains "import osmium" "exec(" = false ∧
    strContains "import osmium" "open(" = false ∧
    strContains "import osmium" "file(" = false := by
  refine ⟨?_, rfl, by decide, rfl, rfl, rfl, rfl⟩
  intro h
  rw [show validate_code "import osmium" = Except.error (PyExc.securityErr
      "Importing module 'os' is not allowed") from rfl] at h
  cases h

/-- C7 (amended): `validate_code` accepts a code text exactly when none of
the raw substrings `import m` / `from m` (for a forbidden module `m`),
`eval(`, `exec(`, `open(`, `file(` occurs in the text; the checks run in
source order and the first match determines the reported violation. -/
theorem c7_validate_ok_iff (code : String) :
    validate_code code = Except.ok () ↔
      ((∀ m ∈ FORBIDDEN_MODULES,
          strContains code ("import " ++ m) = false ∧
          strContains code ("from " ++ m) = false) ∧
       strContains code "eval(" = false ∧
       strContains code "exec(" = false ∧
       strContains code "open(" = false ∧
       strContains code "file(" = false) := by
  cases hfind : findForbiddenImport code FORBIDDEN_MODULES with
  | some m =>
      obtain ⟨hmem, hc⟩ := findForbiddenImport_some code FORBIDDEN_MODULES m hfind
      constructor
      · intro h
        simp only [validate_code, hfind] at h
        exact Except.noConfusion h
      · rintro ⟨hall, _⟩
        rcases hc with hc | hc
        · rw [(hall m hmem).1] at hc
          cases hc
        · rw [(hall m hmem).2] at hc
          cases hc
  | none =>
      have hall := (findForbiddenImport_eq_none code FORBIDDEN_MODULES).mp hfind
      simp only [validate_code, hfind]
      by_cases h1 : (strContains code "eval(" || strContains code "exec(") = true
      · rw [if_pos h1]
        constructor
        · intro h
          cases h
        · rintro ⟨_, he1, he2, _⟩
          rw [he1, he2] at h1
          exact Bool.noConfusion h1
      · rw [if_neg h1]
        have h1f : strContains code "eval(" = false ∧
            strContains code "exec(" = false := by
          cases hq : strContains code "eval(" <;>
            cases hr : strContains code "exec(" <;> simp_all
        by_cases h2 : (strContains code "open(" || strContains code "file(") = true
        · rw [if_pos h2]
          constructor
          · intro h
            cases h
          · rintro ⟨_, _, _, ho1, ho2⟩
            rw [ho1, ho2] at h2
            exact Bool.noConfusion h2
        · rw [if_neg h2]
          have h2f : strContains code "open(" = false ∧
              strContains code "file(" = false := by
            cases hq : strContains code "open(" <;>
              cases hr : strContains code "file(" <;> simp_all
          constructor
          · intro _
            exact ⟨hall, h1f.1, h1f.2, h2f.1, h2f.2⟩
          · intro _
            rfl

/-- Witness for C7 (amended): the text `x = 1` contains none of the
patterns and is accepted. -/
theorem c7_validate_ok_iff_witness : validate_code "x = 1" = Except.ok () :=
  (c7_validate_ok_iff "x = 1").mpr (by decide)

/-- C8: every marshaled response the pipeline can produce carries the
`status` discriminator with value `success` or `error`, holds only the
fields relevant to that variant (`result` for success; `error` and
optionally `traceback` for failures), never emits a `None`-valued field,
and omits each absent field entirely. -/
theorem c8_wire_record_shape (π : PyOracle) (code : String) (params : PyDict)
    (sched : AwaitOutcome) (r : ExecutionResult)
    (h : execute_code_in_process π code params sched = Except.ok r) :
    ("status", PyVal.str r.status) ∈ r.to_dict ∧
    (r.status = "success" ∨ r.status = "error") ∧
    (r.status = "success" →
      ∀ kv ∈ r.to_dict, kv.fst = "status" ∨ kv.fst = "result") ∧
    (r.status = "error" →
      ∀ kv ∈ r.to_dict,
        kv.fst = "status" ∨ kv.fst = "error" ∨ kv.fst = "traceback") ∧
    (∀ kv ∈ r.to_dict, kv.snd.isNone = false) ∧
    (r.result.isNone = true → dictMem r.to_dict "result" = false) ∧
    (r.error = Option.none → dictMem r.to_dict "error" = false) ∧
    (r.traceback = Option.none → dictMem r.to_dict "traceback" = false) := by
  have hshape := pipeline_result_shape π code params sched r h
  obtain ⟨st, res, err, tb⟩ := r
  refine ⟨by simp [ExecutionResult.to_dict], ?_, ?_, ?_, ?_,
          fun hh => to_dict_result_key _ hh,
          fun hh => to_dict_error_key _ hh,
          fun hh => to_dict_traceback_key _ hh⟩
  · rcases hshape with ⟨h1, _⟩ | ⟨h1, _⟩
    · exact Or.inl h1
    · exact Or.inr h1
  · intro hsucc kv hkv
    rcases mem_to_dict_cases st res err tb kv hkv with
      rfl | ⟨rfl, _⟩ | ⟨e, he, rfl⟩ | ⟨t, ht, rfl⟩
    · exact Or.inl rfl
    · exact Or.inr rfl
    · rcases hshape with ⟨_, herr, _⟩ | ⟨h1, _⟩
      · have herr2 : err = Option.none := herr
        rw [he] at herr2
        cases herr2
      · rw [hsucc] at h1
        exact absurd h1 (by decide)
    · rcases hshape with ⟨_, _, htb⟩ | ⟨h1, _⟩
      · have htb2 : tb = Option.none := htb
        rw [ht] at htb2
        cases htb2
      · rw [hsucc] at h1
        exact absurd h1 (by decide)
  · intro herr kv hkv
    rcases mem_to_dict_cases st res err tb kv hkv with
      rfl | ⟨rfl, hres⟩ | ⟨e, he, rfl⟩ | ⟨t, ht, rfl⟩
    · exact Or.inl rfl
    · rcases hshape with ⟨h1, _, _⟩ | ⟨_, h2⟩
      · rw [herr] at h1
        exact absurd h1 (by decide)
      · have h2b : res = PyVal.none := h2
        rw [h2b] at hres
        cases hres
    · exact Or.inr (Or.inl rfl)
    · exact Or.inr (Or.inr rfl)
  · intro kv hkv
    rcases mem_to_dict_cases st res err tb kv hkv with
      rfl | ⟨rfl, hres⟩ | ⟨e, he, rfl⟩ | ⟨t, ht, rfl⟩
    · rfl
    · exact hres
    · rfl
    · rfl

/-- Witness for C8: the timeout record `{status: error, error: Execution
timeout}` produced by the deadline branch is marshaled with exactly the
error-variant fields and no null-valued field. -/
theorem c8_wire_record_shape_witness :
    ("status", PyVal.str timeoutRecord.status) ∈ timeoutRecord.to_dict ∧
    (timeoutRecord.status = "success" ∨ timeoutRecord.status = "error") ∧
    (timeoutRecord.status = "success" →
      ∀ kv ∈ timeoutRecord.to_dict, kv.fst = "status" ∨ kv.fst = "result") ∧
    (timeoutRecord.status = "error" →
      ∀ kv ∈ timeoutRecord.to_dict,
        kv.fst = "status" ∨ kv.fst = "error" ∨ kv.fst = "traceback") ∧
    (∀ kv ∈ timeoutRecord.to_dict, kv.snd.isNone = false) ∧
    (timeoutRecord.result.isNone = true →
      dictMem timeoutRecord.to_dict "result" = false) ∧
    (timeoutRecord.error = Option.none →
      dictMem timeoutRecord.to_dict "error" = false) ∧
    (timeoutRecord.traceback = Option.none →
      dictMem timeoutRecord.to_dict "traceback" = false) :=
  c8_wire_record_shape trivialOracle "" [] AwaitOutcome.timedOut timeoutRecord rfl

/-- C9: when `main` returns `None`, the outcome is a success whose marshaled
record is exactly `{"status": "success"}` — the `result` field is omitted,
making a `None` return indistinguishable on the wire from a success record
with no result field at all. -/
theorem c9_none_result_omitted (π : PyOracle) (code : String) (params : PyDict)
    (g2 : PyDict)
    (hlim : π.setLimits = Except.ok ())
    (hval : validate_code code = Except.ok ())
    (hcomp : π.compileCode = Except.ok ())
    (hexec : π.execCode (dictUpdate create_safe_globals params) = Except.ok g2)
    (hmain : dictMem g2 "main" = true)
    (hcall : π.call (dictGet g2 "main") params = Except.ok PyVal.none) :
    ∃ r, execute_code_in_process π code params AwaitOutcome.completed =
           Except.ok r ∧
         r.status = "success" ∧
         r.to_dict = [("status", PyVal.str "success")] ∧
         r.to_dict = (ExecutionResult.mk "success" PyVal.none
           Option.none Option.none).to_dict := by
  refine ⟨{ status := "success", result := PyVal.none }, ?_, rfl, rfl, rfl⟩
  simp [execute_code_in_process, execute_code_safely, set_resource_limits,
    hlim, hval, hcomp, hexec, hmain, hcall]

/-- Witness for C9: `def main(): return None` marshals to exactly
`{"status": "success"}`. -/
theorem c9_none_result_omitted_witness :
    ∃ r, execute_code_in_process noneOracle noneSnippet []
           AwaitOutcome.completed = Except.ok r ∧
         r.status = "success" ∧
         r.to_dict = [("status", PyVal.str "success")] ∧
         r.to_dict = (ExecutionResult.mk "success" PyVal.none
           Option.none Option.none).to_dict :=
  c9_none_result_omitted noneOracle noneSnippet []
    (dictSet (dictUpdate create_safe_globals []) "main" (PyVal.pyFunc "main"))
    rfl rfl rfl rfl (by decide) rfl

/-- C10: the params mapping is merged into the restricted environment after
the fixed safe bindings, so any params key — including `print` and
`__builtins__` — replaces the sandbox's own binding in the globals the
snippet is executed under; the fixed bindings are not protected against
collisions. -/
theorem c10_params_override_safe_globals (π : PyOracle) (code : String)
    (params : PyDict) (k : String)
    (hnodup : (params.map Prod.fst).Nodup)
    (hlim : π.setLimits = Except.ok ())
    (hval : validate_code code = Except.ok ())
    (hcomp : π.compileCode = Except.ok ())
    (hk : dictMem params k = true) :
    Event.execAttempted (dictUpdate create_safe_globals params) ∈
      (execute_code_safely π code params).snd ∧
    dictGet (dictUpdate create_safe_globals params) k = dictGet params k := by
  constructor
  · cases he : π.execCode (dictUpdate create_safe_globals params) with
    | error e =>
        simp [execute_code_safely, set_resource_limits, hlim, hval, hcomp, he]
    | ok g2 =>
        cases hm : dictMem g2 "main" with
        | false =>
            simp [execute_code_safely, set_resource_limits, hlim, hval, hcomp,
              he, hm]
        | true =>
            cases hcall : π.call (dictGet g2 "main") params with
            | error e =>
                simp [execute_code_safely, set_resource_limits, hlim, hval,
                  hcomp, he, hm, hcall]
            | ok v =>
                simp [execute_code_safely, set_resource_limits, hlim, hval,
                  hcomp, he, hm, hcall]
  · exact dictGet_dictUpdate_mem params create_safe_globals k hnodup hk

/-- Witness for C10: params `{print: 5, __builtins__: 6}` replace both fixed
bindings in the globals the snippet runs under. -/
theorem c10_params_override_safe_globals_witness :
    Event.execAttempted (dictUpdate create_safe_globals overrideParams) ∈
      (execute_code_safely noneOracle noneSnippet overrideParams).snd ∧
    dictGet (dictUpdate create_safe_globals overrideParams) "print" =
      dictGet overrideParams "print" :=
  c10_params_override_safe_globals noneOracle noneSnippet overrideParams
    "print" (by decide) rfl rfl rfl (by decide)
